import Mathlib

set_option autoImplicit false

/-!
# Verification of the Arcade MCP server runtime against its specification

Shallow embedding of the parts of the `Spartee/arcade-ai` repository that the
frozen claims C1..C10 are about:

* the JSON-RPC dispatcher `MCPServer.handle_message`
  (`libs/arcade-mcp/arcade_mcp/server.py`),
* the `tools/call` result construction of both MCP servers
  (`libs/arcade-mcp/arcade_mcp/server.py` and
  `libs/arcade-serve/arcade_serve/mcp/server.py`) and
  `convert_to_mcp_content` (`libs/arcade-serve/arcade_serve/mcp/convert.py`),
* the notification manager's debounce, rate-limit and client-registry logic
  (`libs/arcade-serve/arcade_serve/mcp/notification_manager.py`),
* the in-memory event store (`libs/arcade-serve/arcade_serve/fastapi/event_store.py`).

Python values are modelled by a small JSON value type; Python dicts by
association lists with first-occurrence lookup and in-place replacement,
matching insertion-ordered `dict` semantics; wall-clock times by `ℚ`.
-/

namespace Arcade

/-- JSON values, standing in for the Python values that flow through the
runtime (`None`, `bool`, `int`, `str`, `list`, `dict`).  Python floats do not
occur in any claim and are not modelled. -/
inductive Json where
  | null
  | bool (b : Bool)
  | int (n : Int)
  | str (s : String)
  | arr (xs : List Json)
  | obj (kvs : List (String × Json))
deriving Repr, Inhabited

/-- Python dict lookup `d.get(k)`: value of the first entry with key `k`. -/
def dget {α : Type} (d : List (String × α)) (k : String) : Option α :=
  (d.find? (fun p => p.1 == k)).map Prod.snd

/-- Python key-membership test `k in d`. -/
def dcontains {α : Type} (d : List (String × α)) (k : String) : Bool :=
  d.any (fun p => p.1 == k)

/-- Python dict assignment `d[k] = v`: replace the existing entry in place,
else append (insertion-ordered dict semantics). -/
def dset {α : Type} : List (String × α) → String → α → List (String × α)
  | [], k, v => [(k, v)]
  | (k', v') :: rest, k, v =>
      if k' == k then (k, v) :: rest else (k', v') :: dset rest k v

/-- Python dict deletion `del d[k]` / `d.pop(k, None)`. -/
def ddel {α : Type} : List (String × α) → String → List (String × α)
  | [], _ => []
  | (k', v') :: rest, k =>
      if k' == k then rest else (k', v') :: ddel rest k

/-- Python truthiness of a value (used by `if method and ...`, `x or y`). -/
def Json.truthy : Json → Bool
  | .null => false
  | .bool b => b
  | .int n => n != 0
  | .str s => s != ""
  | .arr xs => !xs.isEmpty
  | .obj kvs => !kvs.isEmpty

/-- Python `str()` on the scalar values that reach it in the modelled code
(request ids and method names are `None`, numbers or strings). -/
def pyStr : Json → String
  | .null => "None"
  | .bool true => "True"
  | .bool false => "False"
  | .int n => toString n
  | .str s => s
  | .arr _ => "<list>"
  | .obj _ => "<dict>"

/-- Minimal JSON string escaping, as `json.dumps` performs on the plain
strings appearing in the claims. -/
def jsonEscapeChar (c : Char) : String :=
  if c = '"' then "\\\""
  else if c = '\\' then "\\\\"
  else if c = '\n' then "\\n"
  else if c = '\t' then "\\t"
  else if c = '\r' then "\\r"
  else String.singleton c

def jsonEscape (s : String) : String :=
  "\"" ++ String.join (s.toList.map jsonEscapeChar) ++ "\""

mutual

/-- `json.dumps` with Python's default separators (`", "` and `": "`). -/
def Json.dumps : Json → String
  | .null => "null"
  | .bool true => "true"
  | .bool false => "false"
  | .int n => toString n
  | .str s => jsonEscape s
  | .arr xs => "[" ++ Json.dumpsList xs ++ "]"
  | .obj kvs => "\x7b" ++ Json.dumpsObj kvs ++ "\x7d"

def Json.dumpsList : List Json → String
  | [] => ""
  | [x] => Json.dumps x
  | x :: y :: rest => Json.dumps x ++ ", " ++ Json.dumpsList (y :: rest)

def Json.dumpsObj : List (String × Json) → String
  | [] => ""
  | [(k, v)] => jsonEscape k ++ ": " ++ Json.dumps v
  | (k, v) :: p :: rest =>
      jsonEscape k ++ ": " ++ Json.dumps v ++ ", " ++ Json.dumpsObj (p :: rest)

end

/-! ## Python `int()` on decimal strings

`InMemoryEventStore.replay_events_after` parses the incoming
`last_event_id` with `int(...)`, falling back to `-1` on `ValueError`.
The parser below models `int()` on the inputs that occur there: runs of
decimal digits with an optional leading minus sign; anything else takes
the `-1` fallback directly. -/

def parseNatAux : ℕ → List Char → Option ℕ
  | acc, [] => some acc
  | acc, c :: cs =>
      if c.isDigit then parseNatAux (acc * 10 + (c.toNat - 48)) cs else none

/-- `int(s)` with the surrounding `except ValueError: last_id_int = -1`
of `replay_events_after` folded in. -/
def pyIntOrNeg1 (s : String) : Int :=
  let l := s.data
  if l = [] then -1
  else if l.head? = some '-' then
    match parseNatAux 0 l.tail with
    | some n => if l.tail = [] then -1 else -(n : Int)
    | none => -1
  else
    match parseNatAux 0 l with
    | some n => (n : Int)
    | none => -1

/-- The decimal digit string of `n`, most significant digit first; shown
below to agree with core's `Nat.repr` (the model of Python `str(ctr)`). -/
def natDigits (n : ℕ) : List Char :=
  if n < 10 then [Nat.digitChar n]
  else natDigits (n / 10) ++ [Nat.digitChar (n % 10)]
decreasing_by exact Nat.div_lt_self (by omega) (by omega)

lemma toDigitsCore_eq_natDigits :
    ∀ (fuel n : ℕ) (ds : List Char), n < fuel →
      Nat.toDigitsCore 10 fuel n ds = natDigits n ++ ds := by
  intro fuel
  induction fuel with
  | zero => intro n ds h; omega
  | succ f ih =>
      intro n ds h
      rw [Nat.toDigitsCore]
      by_cases h10 : n < 10
      · have hdiv : n / 10 = 0 := Nat.div_eq_of_lt h10
        rw [natDigits, if_pos h10]
        simp [hdiv, Nat.mod_eq_of_lt h10]
      · have hge : 10 ≤ n := le_of_not_lt h10
        have hdiv0 : n / 10 ≠ 0 := by
          have h1 : 1 ≤ n / 10 := (Nat.one_le_div_iff (by norm_num)).mpr hge
          omega
        have hlt : n / 10 < f := by
          have h1 : n / 10 < n := Nat.div_lt_self (by omega) (by norm_num)
          omega
        simp only [hdiv0, if_neg, ite_false]
        rw [ih (n / 10) (Nat.digitChar (n % 10) :: ds) hlt]
        conv_rhs => rw [natDigits]
        rw [if_neg h10]
        simp

lemma nat_repr_data (n : ℕ) : (Nat.repr n).data = natDigits n := by
  show (List.asString (Nat.toDigits 10 n)).data = natDigits n
  rw [Nat.toDigits, toDigitsCore_eq_natDigits (n + 1) n [] (by omega)]
  simp [List.asString]

lemma digitChar_isDigit {d : ℕ} (h : d < 10) : (Nat.digitChar d).isDigit = true := by
  interval_cases d <;> decide

lemma digitChar_toNat {d : ℕ} (h : d < 10) : (Nat.digitChar d).toNat - 48 = d := by
  interval_cases d <;> decide

lemma digitChar_ne_minus {d : ℕ} (h : d < 10) : Nat.digitChar d ≠ '-' := by
  interval_cases d <;> decide

lemma parseNatAux_natDigits :
    ∀ (n acc : ℕ) (rest : List Char),
      parseNatAux acc (natDigits n ++ rest)
        = parseNatAux (acc * 10 ^ (natDigits n).length + n) rest := by
  intro n
  induction n using Nat.strong_induction_on with
  | _ n ih =>
    intro acc rest
    by_cases h10 : n < 10
    · rw [natDigits, if_pos h10]
      simp only [List.cons_append, List.nil_append, List.length_cons,
        List.length_nil, parseNatAux, digitChar_isDigit h10, if_pos]
      rw [digitChar_toNat h10]
      norm_num
    · have hge : 10 ≤ n := le_of_not_lt h10
      have hlt : n / 10 < n := Nat.div_lt_self (by omega) (by norm_num)
      conv_lhs => rw [natDigits, if_neg h10]
      rw [List.append_assoc, List.singleton_append,
        ih (n / 10) hlt acc (Nat.digitChar (n % 10) :: rest)]
      have hmod : n % 10 < 10 := Nat.mod_lt _ (by norm_num)
      simp only [parseNatAux, digitChar_isDigit hmod, if_pos]
      rw [digitChar_toNat hmod]
      conv_rhs => rw [natDigits, if_neg h10]
      simp only [List.length_append, List.length_cons, List.length_nil]
      congr 1
      have hdm := Nat.div_add_mod n 10
      ring_nf
      omega

lemma natDigits_ne_nil (n : ℕ) : natDigits n ≠ [] := by
  rw [natDigits]
  by_cases h10 : n < 10
  · simp [if_pos h10]
  · simp [if_neg h10]

lemma natDigits_head_digitChar (n : ℕ) :
    ∃ d, d < 10 ∧ (natDigits n).head? = some (Nat.digitChar d) := by
  induction n using Nat.strong_induction_on with
  | _ n ih =>
    rw [natDigits]
    by_cases h10 : n < 10
    · exact ⟨n, h10, by simp [if_pos h10]⟩
    · have hlt : n / 10 < n := Nat.div_lt_self (by omega) (by norm_num)
      obtain ⟨d, hd, hhead⟩ := ih (n / 10) hlt
      refine ⟨d, hd, ?_⟩
      rw [if_neg h10, List.head?_append_of_ne_nil]
      · exact hhead
      · exact natDigits_ne_nil _

lemma pyIntOrNeg1_repr (k : ℕ) : pyIntOrNeg1 (Nat.repr k) = (k : Int) := by
  unfold pyIntOrNeg1
  rw [nat_repr_data]
  obtain ⟨d, hd, hhead⟩ := natDigits_head_digitChar k
  rw [if_neg (natDigits_ne_nil k)]
  rw [hhead]
  have hne : Nat.digitChar d ≠ '-' := digitChar_ne_minus hd
  rw [if_neg (by simpa using hne)]
  have := parseNatAux_natDigits k 0 []
  rw [List.append_nil] at this
  rw [this]
  simp [parseNatAux]

/-! ## In-memory event store
(`libs/arcade-serve/arcade_serve/fastapi/event_store.py`,
`InMemoryEventStore`). -/

structure InMemoryEventStore where
  /-- `self._events : dict[str, list[tuple[int, dict]]]` -/
  events : List (String × List (ℕ × Json))
  /-- `self._counters : dict[str, int]` -/
  counters : List (String × ℕ)
  /-- `self._max` (`max_events_per_stream`, default 1000) -/
  maxEvents : ℕ

def InMemoryEventStore.empty (maxEvents : ℕ) : InMemoryEventStore :=
  ⟨[], [], maxEvents⟩

/-- `InMemoryEventStore.store_event`.  Returns the updated store and the
assigned event id `str(ctr)`. -/
def store_event (st : InMemoryEventStore) (stream_id : String) (message : Json) :
    InMemoryEventStore × String :=
  let ctr := (dget st.counters stream_id).getD 0 + 1
  let stream := (dget st.events stream_id).getD [] ++ [(ctr, message)]
  let stream :=
    if stream.length > st.maxEvents then stream.drop (stream.length - st.maxEvents)
    else stream
  ({ st with counters := dset st.counters stream_id ctr,
             events := dset st.events stream_id stream },
   Nat.repr ctr)

/-- `InMemoryEventStore.replay_events_after`.  The `for ... else: return []`
loop locates the first event with id greater than `int(last_event_id)`;
when no such event exists the method returns `[]` at once. -/
def replay_events_after (st : InMemoryEventStore) (stream_id : String)
    (last_event_id : Option String) (limit : Option ℕ) : List (String × Json) :=
  let stream := (dget st.events stream_id).getD []
  let items : List (ℕ × Json) :=
    match last_event_id with
    | none => stream
    | some s =>
        let lastId := pyIntOrNeg1 s
        match stream.findIdx? (fun p => decide (lastId < (p.1 : Int))) with
        | some i => stream.drop i
        | none => []
  let items := match limit with | some l => items.take l | none => items
  items.map (fun p => (Nat.repr p.1, p.2))

/-- Store a list of messages one after the other on the same stream,
collecting the assigned event ids. -/
def storeAll (st : InMemoryEventStore) (stream_id : String) :
    List Json → InMemoryEventStore × List String
  | [] => (st, [])
  | m :: ms =>
      let r := store_event st stream_id m
      let rest := storeAll r.1 stream_id ms
      (rest.1, r.2 :: rest.2)

/-! ## Association-list facts (Python dict semantics) -/

lemma dget_dset_self {α : Type} (d : List (String × α)) (k : String) (v : α) :
    dget (dset d k v) k = some v := by
  induction d with
  | nil =>
      rw [dset, dget, List.find?_cons_of_pos _ (by simp)]
      rfl
  | cons p rest ih =>
      obtain ⟨k', v'⟩ := p
      by_cases h : k' = k
      · subst h
        rw [dset, if_pos (by simp), dget, List.find?_cons_of_pos _ (by simp)]
        rfl
      · rw [dset, if_neg (by simpa using h), dget,
          List.find?_cons_of_neg _ (by simpa using h)]
        exact ih

lemma dget_dset_ne {α : Type} (d : List (String × α)) (k k' : String) (v : α)
    (h : k' ≠ k) : dget (dset d k v) k' = dget d k' := by
  induction d with
  | nil =>
      rw [dset, dget, dget,
        List.find?_cons_of_neg _ (by simpa using (Ne.symm h))]
  | cons p rest ih =>
      obtain ⟨k₀, v₀⟩ := p
      by_cases h0 : k₀ = k
      · subst h0
        rw [dset, if_pos (by simp), dget, dget,
          List.find?_cons_of_neg _ (by simpa using (Ne.symm h)),
          List.find?_cons_of_neg _ (by simpa using (Ne.symm h))]
      · rw [dset, if_neg (by simpa using h0)]
        by_cases h1 : k₀ = k'
        · subst h1
          rw [dget, dget, List.find?_cons_of_pos _ (by simp),
            List.find?_cons_of_pos _ (by simp)]
        · rw [dget, dget, List.find?_cons_of_neg _ (by simpa using h1),
            List.find?_cons_of_neg _ (by simpa using h1)]
          exact ih

/-! ## Event-store correctness development -/

lemma store_event_no_trim (st : InMemoryEventStore) (sid : String) (m : Json)
    (c : ℕ) (s : List (ℕ × Json))
    (hc : (dget st.counters sid).getD 0 = c)
    (hs : (dget st.events sid).getD [] = s)
    (hcap : s.length + 1 ≤ st.maxEvents) :
    store_event st sid m
      = ({ st with counters := dset st.counters sid (c + 1),
                   events := dset st.events sid (s ++ [(c + 1, m)]) },
         Nat.repr (c + 1)) := by
  simp only [store_event, hc, hs]
  rw [if_neg (by simp; omega)]

lemma storeAll_spec :
    ∀ (msgs : List Json) (st : InMemoryEventStore) (sid : String)
      (c : ℕ) (s : List (ℕ × Json)),
      (dget st.counters sid).getD 0 = c →
      (dget st.events sid).getD [] = s →
      s.length + msgs.length ≤ st.maxEvents →
      (dget (storeAll st sid msgs).1.events sid).getD []
          = s ++ List.enumFrom (c + 1) msgs
        ∧ (storeAll st sid msgs).2
          = (List.range msgs.length).map (fun i => Nat.repr (c + 1 + i)) := by
  intro msgs
  induction msgs with
  | nil =>
      intro st sid c s hc hs _
      simp [storeAll, hs]
  | cons m ms ih =>
      intro st sid c s hc hs hcap
      have hstep := store_event_no_trim st sid m c s hc hs (by simp at hcap; omega)
      simp only [storeAll, hstep]
      have hc' : (dget (dset st.counters sid (c + 1)) sid).getD 0 = c + 1 := by
        rw [dget_dset_self]; rfl
      have hs' : (dget (dset st.events sid (s ++ [(c + 1, m)])) sid).getD []
          = s ++ [(c + 1, m)] := by
        rw [dget_dset_self]; rfl
      have hcap' : (s ++ [(c + 1, m)]).length + ms.length ≤ st.maxEvents := by
        simp at hcap ⊢; omega
      obtain ⟨h1, h2⟩ := ih
        ({ st with counters := dset st.counters sid (c + 1),
                   events := dset st.events sid (s ++ [(c + 1, m)]) })
        sid (c + 1) (s ++ [(c + 1, m)]) hc' hs' hcap'
      constructor
      · rw [h1, List.append_assoc]
        rfl
      · rw [h2, List.length_cons, List.range_succ_eq_map, List.map_cons,
          List.map_map]
        congr 1
        apply List.map_congr_left
        intro i _
        congr 1
        omega

lemma findIdx?_enumFrom_gt :
    ∀ (msgs : List Json) (n i0 k : ℕ),
      List.findIdx? (fun p => decide ((k : Int) < (p.1 : Int)))
          (List.enumFrom n msgs) i0
        = if k + 1 - n < msgs.length then some (i0 + (k + 1 - n)) else none := by
  intro msgs
  induction msgs with
  | nil => intro n i0 k; simp
  | cons m ms ih =>
      intro n i0 k
      show List.findIdx? _ ((n, m) :: List.enumFrom (n + 1) ms) i0 = _
      rw [List.findIdx?_cons]
      by_cases hk : k < n
      · rw [if_pos (by simpa using hk)]
        have h0 : k + 1 - n = 0 := by omega
        rw [h0, if_pos (by simp)]
        simp
      · rw [if_neg (by simpa using hk)]
        rw [ih (n + 1) (i0 + 1) k]
        by_cases h2 : k + 1 - (n + 1) < ms.length
        · rw [if_pos h2, if_pos (by simp only [List.length_cons]; omega)]
          congr 1
          omega
        · rw [if_neg h2, if_neg (by simp only [List.length_cons]; omega)]

lemma enumFrom_drop :
    ∀ (xs : List Json) (n i : ℕ),
      (List.enumFrom n xs).drop i = List.enumFrom (n + i) (xs.drop i) := by
  intro xs
  induction xs with
  | nil => intro n i; simp
  | cons x xs ih =>
      intro n i
      cases i with
      | zero => simp
      | succ j =>
          show (List.enumFrom (n + 1) xs).drop j = _
          rw [ih (n + 1) j]
          congr 1
          omega

lemma replay_events_after_enumFrom (st : InMemoryEventStore) (sid : String)
    (msgs : List Json) (k : ℕ)
    (hstream : (dget st.events sid).getD [] = List.enumFrom 1 msgs)
    (hk : k ≤ msgs.length) :
    replay_events_after st sid (some (Nat.repr k)) none
      = (List.enumFrom (k + 1) (msgs.drop k)).map (fun p => (Nat.repr p.1, p.2)) := by
  unfold replay_events_after
  simp only [hstream, pyIntOrNeg1_repr]
  rw [findIdx?_enumFrom_gt msgs 1 0 k]
  by_cases hlt : k + 1 - 1 < msgs.length
  · rw [if_pos hlt]
    have h1 : 0 + (k + 1 - 1) = k := by omega
    rw [h1]
    show List.map _ (List.drop k (List.enumFrom 1 msgs)) = _
    rw [enumFrom_drop msgs 1 k]
    have h2 : 1 + k = k + 1 := by omega
    rw [h2]
  · rw [if_neg hlt]
    have hkeq : k = msgs.length := by omega
    subst hkeq
    simp

/-- C6: on a fresh event-store stream holding `e1..eN` with `N` within
`max_events_per_stream` (so no trimming), `replay_events_after` with
`last_event_id = str(k)` (the id `store_event` assigned to `ek`) returns
exactly `e(k+1)..eN` in storage order with their ids, the ids assigned by
`store_event` are `"1".."N"` in order, and the per-stream stored ids are
strictly increasing. -/
theorem eventstore_replay_after_spec (msgs : List Json) (sid : String)
    (k maxE : ℕ) (hcap : msgs.length ≤ maxE) (hk : k ≤ msgs.length) :
    replay_events_after (storeAll (InMemoryEventStore.empty maxE) sid msgs).1
        sid (some (Nat.repr k)) none
      = (List.enumFrom (k + 1) (msgs.drop k)).map (fun p => (Nat.repr p.1, p.2))
    ∧ (storeAll (InMemoryEventStore.empty maxE) sid msgs).2
      = (List.range msgs.length).map (fun i => Nat.repr (i + 1))
    ∧ List.Pairwise (· < ·)
        (((dget (storeAll (InMemoryEventStore.empty maxE) sid msgs).1.events
            sid).getD []).map Prod.fst) := by
  obtain ⟨h1, h2⟩ := storeAll_spec msgs (InMemoryEventStore.empty maxE) sid 0 []
    rfl rfl (by simpa using hcap)
  rw [List.nil_append] at h1
  refine ⟨?_, ?_, ?_⟩
  · exact replay_events_after_enumFrom _ sid msgs k (by simpa using h1) hk
  · rw [h2]
    apply List.map_congr_left
    intro i _
    congr 1
    omega
  · rw [h1]
    have : (0 : ℕ) + 1 = 1 := rfl
    rw [this, List.enumFrom_map_fst]
    exact List.pairwise_lt_range' 1 msgs.length

/-- Witness for C6 at a concrete run: three events stored, replay after the
first returns the last two with ids "2" and "3". -/
theorem eventstore_replay_after_spec_witness :
    [Json.str "a", Json.str "b", Json.str "c"].length ≤ 1000
    ∧ 1 ≤ [Json.str "a", Json.str "b", Json.str "c"].length
    ∧ replay_events_after
        (storeAll (InMemoryEventStore.empty 1000) "s"
          [Json.str "a", Json.str "b", Json.str "c"]).1
        "s" (some (Nat.repr 1)) none
      = [("2", Json.str "b"), ("3", Json.str "c")] :=
  ⟨by norm_num, by norm_num,
   ((eventstore_replay_after_spec [Json.str "a", Json.str "b", Json.str "c"]
      "s" 1 1000 (by norm_num) (by norm_num)).1).trans (by rfl)⟩

/-! ## The arcade_mcp JSON-RPC dispatcher
(`libs/arcade-mcp/arcade_mcp/server.py`, `MCPServer.handle_message`).

The session object (`arcade_mcp/session.py` is not under `src/`; its state
machine is given by the spec) contributes only its initialization state
here: `mark_initialized` sets it to `Initialized`.  The middleware chain
(error handling, logging) passes successful handler results through
unchanged, so dispatch is modelled as a direct call. -/

/-- `InitializationState` of `arcade_mcp.session`.  Modelled from the spec:
`init_state ∈ \x7bNotInitialized, Initializing, Initialized\x7d`. -/
inductive InitializationState where
  | notInit
  | initializing
  | initializedState
deriving Repr, DecidableEq

/-- The method → handler table built by `MCPServer._register_handlers`
(only the keys matter for dispatch). -/
def registeredHandlers : List String :=
  ["ping", "initialize", "tools/list", "tools/call", "resources/list",
   "resources/templates/list", "resources/read", "prompts/list",
   "prompts/get", "logging/setLevel"]

/-- What `handle_message` produces.  `response id result` is a
`JSONRPCResponse` (per the spec's type model its wire form carries
`jsonrpc:"2.0"`); `dispatched m` abstracts the invocation of a non-ping
handler through the middleware chain, whose value no claim depends on. -/
inductive DispatchResult where
  | rpcError (id : String) (code : Int) (message : String)
  | noResponse
  | response (id : Json) (result : Json)
  | dispatched (method : String)
deriving Repr

/-- `str(msg_id or "null")`, as used for the `id` of dispatcher errors. -/
def idOrNull (msgId : Option Json) : String :=
  match msgId with
  | some v => if v.truthy then pyStr v else "null"
  | none => "null"

/-- The modelled messages are those whose `"method"` value, when the key is
present, is a string or `null`: a truthy non-string method would make
`method.startswith` raise in the source, a path no claim exercises. -/
def methodWF (kvs : List (String × Json)) : Bool :=
  match dget kvs "method" with
  | none => true
  | some Json.null => true
  | some (Json.str _) => true
  | some _ => false

/-- Python `s.startswith(pre)` (an executable character-list model of
`String.startsWith`). -/
def pyStartsWith (s pre : String) : Bool :=
  pre.data.isPrefixOf s.data

/-- Python's `method == "name"` for the raw `message.get("method")` value:
only a string value can compare equal. -/
def isMethod (method? : Option Json) (name : String) : Bool :=
  match method? with
  | some (Json.str m) => m == name
  | _ => false

/-- `MCPServer.handle_message` (session present), paired with the session's
initialization state before and after.  Follows the source order: non-dict
check, `notifications/` internal handling (with `mark_initialized`),
response passthrough, initialization gate, handler lookup, dispatch.
`ping` dispatch is `_handle_ping`: `JSONRPCResponse(id=message.id,
result=\x7b\x7d)`; a ping whose `id` is absent or not an int/string fails
typed-params validation and is mapped to `-32603` by the surrounding
`except` (params models are in `arcade_mcp/types.py`, not under `src/`;
modelled from the spec's framing "a request has `method` and `id`"). -/
def handle_message (st : InitializationState) (message : Json) :
    DispatchResult × InitializationState :=
  match message with
  | Json.obj kvs =>
      let method? := dget kvs "method"
      let msgId? := dget kvs "id"
      if (match method? with
          | some (Json.str m) => m != "" && pyStartsWith m "notifications/"
          | _ => false) then
        (DispatchResult.noResponse,
         if isMethod method? "notifications/initialized" then
           InitializationState.initializedState
         else st)
      else if dcontains kvs "id" && !dcontains kvs "method" then
        (DispatchResult.noResponse, st)
      else if decide (st ≠ InitializationState.initializedState)
          && !isMethod method? "initialize" && !isMethod method? "ping" then
        (DispatchResult.rpcError (idOrNull msgId?) (-32600)
          "Request not allowed before initialization", st)
      else if (match method? with
               | some (Json.str m) => registeredHandlers.contains m
               | _ => false) then
        if isMethod method? "ping" then
          match msgId? with
          | some (Json.int n) => (DispatchResult.response (Json.int n) (Json.obj []), st)
          | some (Json.str s) => (DispatchResult.response (Json.str s) (Json.obj []), st)
          | _ => (DispatchResult.rpcError (idOrNull msgId?) (-32603) "Internal error", st)
        else
          (DispatchResult.dispatched
            (match method? with | some (Json.str m) => m | _ => ""), st)
      else
        (DispatchResult.rpcError (idOrNull msgId?) (-32601)
          ("Method not found: "
            ++ (match method? with | some v => pyStr v | none => "None")), st)
  | _ =>
      (DispatchResult.rpcError "null" (-32600) "Invalid request", st)

/-- Wire form of a dispatcher outcome, per the spec's JSON-RPC envelope
(`jsonrpc:"2.0"` plus `result` or `error`); `none` for outcomes that send
nothing here. -/
def DispatchResult.toWire : DispatchResult → Option Json
  | .rpcError i c m =>
      some (Json.obj [("jsonrpc", Json.str "2.0"), ("id", Json.str i),
        ("error", Json.obj [("code", Json.int c), ("message", Json.str m)])])
  | .noResponse => none
  | .response i r =>
      some (Json.obj [("jsonrpc", Json.str "2.0"), ("id", i), ("result", r)])
  | .dispatched _ => none

/-- `true` exactly for the `rpcError` outcome. -/
def DispatchResult.isRpcError : DispatchResult → Bool
  | .rpcError _ _ _ => true
  | _ => false

lemma dcontains_of_dget {α : Type} (d : List (String × α)) (k : String) (v : α)
    (h : dget d k = some v) : dcontains d k = true := by
  have hsome : (d.find? (fun p => p.1 == k)).isSome = true := by
    unfold dget at h
    cases hf : d.find? (fun p => p.1 == k) with
    | none => rw [hf] at h; simp at h
    | some _ => simp [hf]
  rw [List.find?_isSome] at hsome
  exact List.any_eq_true.mpr hsome

/-- The session state after `handle_message` on an object message: it flips
to `Initialized` exactly when the message's `method` is the string
`"notifications/initialized"`, and is otherwise untouched. -/
lemma handle_message_state (st : InitializationState)
    (kvs : List (String × Json)) :
    (handle_message st (Json.obj kvs)).2
      = (if ((match dget kvs "method" with
              | some (Json.str m) => m != "" && pyStartsWith m "notifications/"
              | _ => false)
             && isMethod (dget kvs "method") "notifications/initialized") = true
         then InitializationState.initializedState else st) := by
  simp only [handle_message]
  by_cases h1 : (match dget kvs "method" with
                 | some (Json.str m) => m != "" && pyStartsWith m "notifications/"
                 | _ => false) = true
  · rw [if_pos h1]
    simp only [h1, Bool.true_and]
  · rw [if_neg h1]
    have hrhs : ¬(((match dget kvs "method" with
          | some (Json.str m) => m != "" && pyStartsWith m "notifications/"
          | _ => false)
         && isMethod (dget kvs "method") "notifications/initialized") = true) := by
      simp only [Bool.and_eq_true]
      intro hc
      exact h1 hc.1
    rw [if_neg hrhs]
    repeat' split
    all_goals rfl

/-- C1 counterexample: a message carrying both an `id` (so, by the spec's
framing, a request) and the method `"notifications/cancelled"` — which is
neither `initialize` nor `ping` — is consumed by the `notifications/`
branch of `handle_message` while the session is `NotInitialized`: the
dispatcher returns no response at all instead of the claimed
`-32600` JSON-RPC error. -/
theorem handle_message_init_gate_counterexample :
    (handle_message InitializationState.notInit
        (Json.obj [("jsonrpc", Json.str "2.0"), ("id", Json.int 5),
          ("method", Json.str "notifications/cancelled")])).1
      = DispatchResult.noResponse
    ∧ (handle_message InitializationState.notInit
        (Json.obj [("jsonrpc", Json.str "2.0"), ("id", Json.int 5),
          ("method", Json.str "notifications/cancelled")])).1.isRpcError
      = false
    ∧ dcontains [("jsonrpc", Json.str "2.0"), ("id", Json.int 5),
          ("method", Json.str "notifications/cancelled")] "id" = true
    ∧ dget [("jsonrpc", Json.str "2.0"), ("id", Json.int 5),
          ("method", Json.str "notifications/cancelled")] "method"
      = some (Json.str "notifications/cancelled") :=
  ⟨rfl, rfl, rfl, rfl⟩

/-- C1 (amended): while the session is not `Initialized`, a request
(object message with `id` and a string `method`) whose method is neither
`"initialize"` nor `"ping"` **and does not start with `"notifications/"`**
is answered with JSON-RPC error `-32600` and is not dispatched to a
handler, the state being left unchanged; and the state becomes
`Initialized` exactly upon a message whose method is
`"notifications/initialized"` (messages with prefix `notifications/` are
consumed internally without a response, whether or not they carry an
`id`). -/
theorem handle_message_init_gate :
    (∀ (st : InitializationState) (kvs : List (String × Json)) (m : String),
      st ≠ InitializationState.initializedState →
      dcontains kvs "id" = true →
      dget kvs "method" = some (Json.str m) →
      m ≠ "initialize" → m ≠ "ping" →
      pyStartsWith m "notifications/" = false →
      (handle_message st (Json.obj kvs)).1
          = DispatchResult.rpcError (idOrNull (dget kvs "id")) (-32600)
              "Request not allowed before initialization"
        ∧ (handle_message st (Json.obj kvs)).2 = st)
    ∧ (∀ (st : InitializationState) (kvs : List (String × Json)),
        ((handle_message st (Json.obj kvs)).2
            = InitializationState.initializedState
          ↔ (st = InitializationState.initializedState
             ∨ dget kvs "method"
                 = some (Json.str "notifications/initialized")))) := by
  constructor
  · intro st kvs m hst hid hm h1 h2 h3
    have hnotif : (match dget kvs "method" with
        | some (Json.str m) => m != "" && pyStartsWith m "notifications/"
        | _ => false) = false := by
      rw [hm]
      show (m != "" && pyStartsWith m "notifications/") = false
      rw [h3, Bool.and_false]
    have hmc : dcontains kvs "method" = true :=
      dcontains_of_dget kvs "method" (Json.str m) hm
    have hgate : (decide (st ≠ InitializationState.initializedState)
        && !isMethod (dget kvs "method") "initialize"
        && !isMethod (dget kvs "method") "ping") = true := by
      rw [hm]
      simp [isMethod, hst, h1, h2]
    constructor
    · simp only [handle_message]
      rw [if_neg (by simp [hnotif]), if_neg (by simp [hmc]), if_pos hgate]
    · simp only [handle_message]
      rw [if_neg (by simp [hnotif]), if_neg (by simp [hmc]), if_pos hgate]
  · intro st kvs
    rw [handle_message_state]
    by_cases hc : ((match dget kvs "method" with
        | some (Json.str m) => m != "" && pyStartsWith m "notifications/"
        | _ => false)
       && isMethod (dget kvs "method") "notifications/initialized") = true
    · rw [if_pos hc]
      simp only [true_iff]
      right
      rw [Bool.and_eq_true] at hc
      obtain ⟨-, hmeth⟩ := hc
      unfold isMethod at hmeth
      cases hmg : dget kvs "method" with
      | none => rw [hmg] at hmeth; simp at hmeth
      | some v =>
          cases v with
          | str s =>
              rw [hmg] at hmeth
              simp only [beq_iff_eq] at hmeth
              subst hmeth
              rfl
          | null => rw [hmg] at hmeth; simp at hmeth
          | bool b => rw [hmg] at hmeth; simp at hmeth
          | int n => rw [hmg] at hmeth; simp at hmeth
          | arr xs => rw [hmg] at hmeth; simp at hmeth
          | obj o => rw [hmg] at hmeth; simp at hmeth
    · rw [if_neg hc]
      constructor
      · intro hst
        exact Or.inl hst
      · intro hor
        rcases hor with hst | hmeth
        · exact hst
        · exfalso
          apply hc
          rw [hmeth]
          rfl

/-- C1 witness: a `tools/list` request before initialization is rejected
with `-32600` and leaves the state unchanged, and
`notifications/initialized` flips the state of a concrete session. -/
theorem handle_message_init_gate_witness :
    (InitializationState.notInit ≠ InitializationState.initializedState
     ∧ dcontains [("id", Json.int 2), ("method", Json.str "tools/list")] "id" = true
     ∧ dget [("id", Json.int 2), ("method", Json.str "tools/list")] "method"
         = some (Json.str "tools/list")
     ∧ (handle_message InitializationState.notInit
          (Json.obj [("id", Json.int 2), ("method", Json.str "tools/list")])).1
         = DispatchResult.rpcError "2" (-32600)
             "Request not allowed before initialization")
    ∧ ((handle_message InitializationState.notInit
          (Json.obj [("method", Json.str "notifications/initialized")])).2
        = InitializationState.initializedState
       ↔ (InitializationState.notInit = InitializationState.initializedState
          ∨ dget [("method", Json.str "notifications/initialized")] "method"
              = some (Json.str "notifications/initialized"))) :=
  ⟨⟨by decide, rfl, rfl,
    (handle_message_init_gate.1 InitializationState.notInit
      [("id", Json.int 2), ("method", Json.str "tools/list")] "tools/list"
      (by decide) rfl rfl (by decide) (by decide) rfl).1⟩,
   handle_message_init_gate.2 InitializationState.notInit
     [("method", Json.str "notifications/initialized")]⟩

/-- C7: a `ping` request with id `N` (an int or string, per the JSON-RPC
framing) is answered `JSONRPCResponse(id=N, result=\x7b\x7d)` — on the wire
`\x7bjsonrpc:"2.0", id:N, result:\x7b\x7d\x7d` — in every session
initialization state, the state being left unchanged. -/
theorem handle_message_ping (st : InitializationState)
    (kvs : List (String × Json)) (N : Json)
    (hm : dget kvs "method" = some (Json.str "ping"))
    (hid : dget kvs "id" = some N)
    (hN : (∃ n, N = Json.int n) ∨ (∃ s, N = Json.str s)) :
    (handle_message st (Json.obj kvs)).1
        = DispatchResult.response N (Json.obj [])
    ∧ (handle_message st (Json.obj kvs)).1.toWire
        = some (Json.obj [("jsonrpc", Json.str "2.0"), ("id", N),
            ("result", Json.obj [])])
    ∧ (handle_message st (Json.obj kvs)).2 = st := by
  have hmc : dcontains kvs "method" = true :=
    dcontains_of_dget kvs "method" (Json.str "ping") hm
  have hres : (handle_message st (Json.obj kvs)).1
      = DispatchResult.response N (Json.obj [])
      ∧ (handle_message st (Json.obj kvs)).2 = st := by
    simp only [handle_message]
    rw [if_neg (by rw [hm]; simp [pyStartsWith])]
    rw [if_neg (by simp [hmc])]
    rw [if_neg (by rw [hm]; simp [isMethod])]
    rw [if_pos (by rw [hm]; rfl)]
    rw [if_pos (by rw [hm]; rfl)]
    rw [hid]
    rcases hN with ⟨n, hn⟩ | ⟨s, hs⟩
    · subst hn; exact ⟨rfl, rfl⟩
    · subst hs; exact ⟨rfl, rfl⟩
  refine ⟨hres.1, ?_, hres.2⟩
  rw [hres.1]
  rfl

/-- C7 witness: a concrete ping with id 7 on a `NotInitialized` session. -/
theorem handle_message_ping_witness :
    dget [("jsonrpc", Json.str "2.0"), ("id", Json.int 7),
        ("method", Json.str "ping")] "method" = some (Json.str "ping")
    ∧ dget [("jsonrpc", Json.str "2.0"), ("id", Json.int 7),
        ("method", Json.str "ping")] "id" = some (Json.int 7)
    ∧ (handle_message InitializationState.notInit
        (Json.obj [("jsonrpc", Json.str "2.0"), ("id", Json.int 7),
          ("method", Json.str "ping")])).1.toWire
      = some (Json.obj [("jsonrpc", Json.str "2.0"), ("id", Json.int 7),
          ("result", Json.obj [])]) :=
  ⟨rfl, rfl,
   (handle_message_ping InitializationState.notInit
      [("jsonrpc", Json.str "2.0"), ("id", Json.int 7),
        ("method", Json.str "ping")]
      (Json.int 7) rfl rfl (Or.inl ⟨7, rfl⟩)).2.1⟩

/-! ## `tools/call` result construction

Two independent implementations are modelled:
`arcade_serve.mcp.server.MCPServer._handle_call_tool` (with
`arcade_serve.mcp.convert.convert_to_mcp_content`) and
`arcade_mcp.server.MCPServer._handle_call_tool`.  The catalog lookup and
`ToolExecutor.run` live in `arcade_core` (not under `src/`); they are
treated as inputs: a lookup outcome and a `ToolOutput` value/error pair. -/

/-- A `\x7btype:"text", text:s\x7d` content block. -/
def textBlock (s : String) : Json :=
  Json.obj [("type", Json.str "text"), ("text", Json.str s)]

/-- The observable outcome of `ToolExecutor.run`: `result.value` (with
Python `None` as `Json.null`) and `result.error`. -/
structure ToolOutput where
  value : Json
  error : Option String
deriving Repr

/-- `CallToolResult` fields the claims are about (`structuredContent = none`
models the field absent/None). -/
structure CallToolResult where
  content : List Json
  structuredContent : Option Json
  isError : Bool
deriving Repr

/-- A normal JSON-RPC response wrapping a `CallToolResult` (not a JSON-RPC
error object). -/
structure CallToolResponse where
  id : Json
  result : CallToolResult
deriving Repr

def Json.isNull : Json → Bool
  | .null => true
  | _ => false

def Json.isObj : Json → Bool
  | .obj _ => true
  | _ => false

/-- Python `x or dflt` for an optional string (`None` and `""` are falsy). -/
def pyOrStr (o : Option String) (dflt : String) : String :=
  match o with
  | some s => if s == "" then dflt else s
  | none => dflt

/-- Python `not result.error` for an optional string. -/
def errFalsy (o : Option String) : Bool :=
  match o with
  | some s => s == ""
  | none => true

/-- `arcade_serve.mcp.convert.convert_to_mcp_content` on the modelled value
space: `None → []`; `str`/`bool`/`int` → one `str(value)` text block;
`dict`/`list` → one `json.dumps(value)` text block.  (Floats are outside
the model; the final fallback arm coincides with the primitive arm.) -/
def convert_to_mcp_content : Json → List Json
  | Json.null => []
  | Json.str s => [textBlock (pyStr (Json.str s))]
  | Json.bool b => [textBlock (pyStr (Json.bool b))]
  | Json.int n => [textBlock (pyStr (Json.int n))]
  | Json.arr xs => [textBlock (Json.dumps (Json.arr xs))]
  | Json.obj kvs => [textBlock (Json.dumps (Json.obj kvs))]

/-- Result of the catalog lookup
(`tool_catalog.get_tool_by_name(tool_name, separator="_")`, in
`arcade_core.catalog`, not under `src/`): either a tool, of which only the
presence of an output schema (`tool.definition.output.value_schema is not
None`) matters here, or the raised lookup exception with its rendered
message. -/
inductive CatalogLookup where
  | found (hasOutputSchema : Bool)
  | notFound (excMsg : String)

/-- The result-conversion tail of
`arcade_serve.mcp.server.MCPServer._handle_call_tool`, from the point where
`ToolExecutor.run` has returned.  The branch condition transcribes the
source literally: `result.value is not None or (result.value is not None
and not result.error)` — the second disjunct repeats the first.  The
`try: json.dumps(...) except` fallback never fires on the modelled value
space, where serialization is total. -/
def serve_call_tool_convert (hasOutputSchema : Bool) (result : ToolOutput)
    (msgId : Json) : CallToolResponse :=
  let rid := if msgId.truthy then msgId else Json.int 0
  if !result.value.isNull
      || (!result.value.isNull && errFalsy result.error) then
    let structured : Option Json :=
      if result.value.isObj then some result.value
      else if hasOutputSchema then some (Json.obj [("result", result.value)])
      else none
    let content : List Json :=
      match structured with
      | some sc => [textBlock sc.dumps]
      | none => convert_to_mcp_content result.value
    ⟨rid, ⟨content, structured, false⟩⟩
  else
    ⟨rid, ⟨[textBlock (pyOrStr result.error "Error calling tool")], none, true⟩⟩

/-- `arcade_serve` `_handle_call_tool`: a raised lookup error is caught by
the handler's generic `except Exception as e`, which renders
`f"Error calling tool \x7btool_name\x7d: \x7be!s\x7d"`. -/
def serve_handle_call_tool (lookup : CatalogLookup) (run : ToolOutput)
    (msgId : Json) (toolName : String) : CallToolResponse :=
  match lookup with
  | CatalogLookup.notFound excMsg =>
      ⟨if msgId.truthy then msgId else Json.int 0,
       ⟨[textBlock ("Error calling tool " ++ toolName ++ ": " ++ excMsg)],
        none, true⟩⟩
  | CatalogLookup.found hos => serve_call_tool_convert hos run msgId

/-- Modelled from the spec: `arcade_mcp.convert.convert_to_mcp_content`
(`arcade_mcp/convert.py` is not under `src/`); §4.I.6's type-driven
conversion — primitives become a single text block, mappings/sequences a
JSON-encoded text block, null yields `[]` — identical in shape to the
`arcade_serve` implementation above. -/
def mcp_convert_content : Json → List Json :=
  convert_to_mcp_content

/-- `arcade_mcp.server.MCPServer._handle_call_tool`: `NotFoundError` from
`ToolManager.get_tool` yields a NORMAL response whose result is
`CallToolResult(content=[text "Unknown tool: <name>"], isError=True)` with
the request's own id; a successful non-None value is converted with
`convert_to_mcp_content` only — no `structuredContent` is ever attached,
whether or not the tool declares an output schema. -/
def mcp_handle_call_tool (found : Bool) (run : ToolOutput) (msgId : Json)
    (toolName : String) : CallToolResponse :=
  if !found then
    ⟨msgId, ⟨[textBlock ("Unknown tool: " ++ toolName)], none, true⟩⟩
  else if !run.value.isNull then
    ⟨msgId, ⟨mcp_convert_content run.value, none, false⟩⟩
  else
    ⟨msgId, ⟨[textBlock (pyOrStr run.error "Error calling tool")], none, true⟩⟩

lemma textBlock_inj {a b : String} (h : textBlock a = textBlock b) : a = b := by
  simpa [textBlock] using h

/-- C2 (amended, `arcade_serve` handler): for a tool declaring an output
schema whose execution returns a non-None value `V`, the response result
has `structuredContent = V` when `V` is a mapping and
`structuredContent = \x7bresult: V\x7d` otherwise, `content[0]` is a text
block holding the JSON serialization of `structuredContent`, and the
result is not an error. -/
theorem serve_structured_content (run : ToolOutput) (msgId : Json)
    (toolName : String) (hv : run.value.isNull = false) :
    (serve_handle_call_tool (CatalogLookup.found true) run msgId
        toolName).result.structuredContent
      = some (if run.value.isObj then run.value
              else Json.obj [("result", run.value)])
    ∧ (serve_handle_call_tool (CatalogLookup.found true) run msgId
        toolName).result.content
      = [textBlock (Json.dumps (if run.value.isObj then run.value
              else Json.obj [("result", run.value)]))]
    ∧ (serve_handle_call_tool (CatalogLookup.found true) run msgId
        toolName).result.isError = false := by
  show (serve_call_tool_convert true run msgId).result.structuredContent = _
    ∧ (serve_call_tool_convert true run msgId).result.content = _
    ∧ (serve_call_tool_convert true run msgId).result.isError = _
  unfold serve_call_tool_convert
  rw [if_pos (by rw [hv]; rfl)]
  by_cases ho : run.value.isObj = true
  · simp [ho]
  · simp [ho]

/-- C2 witness (amended theorem at a concrete input): `math.add` declares
an integer output schema and returns `5`; the serve response carries
`structuredContent = \x7bresult: 5\x7d` and the matching JSON text block. -/
theorem serve_structured_content_witness :
    (⟨Json.int 5, none⟩ : ToolOutput).value.isNull = false
    ∧ (serve_handle_call_tool (CatalogLookup.found true) ⟨Json.int 5, none⟩
        (Json.int 3) "math_add").result.structuredContent
      = some (Json.obj [("result", Json.int 5)])
    ∧ (serve_handle_call_tool (CatalogLookup.found true) ⟨Json.int 5, none⟩
        (Json.int 3) "math_add").result.content
      = [textBlock "\x7b\"result\": 5\x7d"] :=
  ⟨rfl,
   ((serve_structured_content ⟨Json.int 5, none⟩ (Json.int 3) "math_add"
      rfl).1).trans (by rfl),
   ((serve_structured_content ⟨Json.int 5, none⟩ (Json.int 3) "math_add"
      rfl).2.1).trans (by rfl)⟩

/-- C2 counterexample: the other cited implementation,
`arcade_mcp.server.MCPServer._handle_call_tool`, never attaches
`structuredContent`: for a tool with an output schema returning the
non-mapping value `5` the response result has no `structuredContent`
(the handler's response construction does not consult the output schema at
all), and `content[0]` is the plain text block `"5"`, not the JSON
serialization of `\x7bresult: 5\x7d`. -/
theorem mcp_structured_content_counterexample :
    (mcp_handle_call_tool true ⟨Json.int 5, none⟩ (Json.int 3)
        "math_add").result.structuredContent = none
    ∧ (mcp_handle_call_tool true ⟨Json.int 5, none⟩ (Json.int 3)
        "math_add").result.content = [textBlock "5"]
    ∧ Json.dumps (Json.obj [("result", Json.int 5)]) = "\x7b\"result\": 5\x7d"
    ∧ ("5" : String) ≠ "\x7b\"result\": 5\x7d" :=
  ⟨rfl, rfl, rfl, by decide⟩

/-- C3 (amended): for a `tools/call` naming a tool absent from the catalog,
the `arcade_mcp` handler returns a normal response with the same request id
and result `CallToolResult\x7bisError:true, content:[text "Unknown tool:
<name>"]\x7d`, exactly as claimed; the `arcade_serve` handler also returns
a normal `isError:true` response (id `message.id or 0`), but its text is
`"Error calling tool <name>: <exception>"`, never the `"Unknown tool:"`
form. -/
theorem call_tool_unknown_tool :
    (∀ (run : ToolOutput) (msgId : Json) (toolName : String),
      mcp_handle_call_tool false run msgId toolName
        = ⟨msgId, ⟨[textBlock ("Unknown tool: " ++ toolName)], none, true⟩⟩)
    ∧ (∀ (excMsg : String) (run : ToolOutput) (msgId : Json)
        (toolName : String),
      serve_handle_call_tool (CatalogLookup.notFound excMsg) run msgId toolName
        = ⟨if msgId.truthy then msgId else Json.int 0,
           ⟨[textBlock ("Error calling tool " ++ toolName ++ ": " ++ excMsg)],
            none, true⟩⟩
      ∧ ("Error calling tool " ++ toolName ++ ": " ++ excMsg)
          ≠ ("Unknown tool: " ++ toolName)) := by
  constructor
  · intro run msgId toolName
    rfl
  · intro excMsg run msgId toolName
    refine ⟨rfl, ?_⟩
    intro h
    have hl := congrArg String.length h
    simp only [String.length_append] at hl
    have h1 : ("Error calling tool " : String).length = 19 := rfl
    have h2 : (": " : String).length = 2 := rfl
    have h3 : ("Unknown tool: " : String).length = 14 := rfl
    rw [h1, h2, h3] at hl
    omega

/-- C3 witness: concrete unknown tool `"nope"`, request id 4. -/
theorem call_tool_unknown_tool_witness :
    mcp_handle_call_tool false ⟨Json.null, none⟩ (Json.int 4) "nope"
      = ⟨Json.int 4, ⟨[textBlock "Unknown tool: nope"], none, true⟩⟩
    ∧ (serve_handle_call_tool (CatalogLookup.notFound "not found in catalog")
        ⟨Json.null, none⟩ (Json.int 4) "nope").result.isError = true :=
  ⟨(call_tool_unknown_tool.1 ⟨Json.null, none⟩ (Json.int 4) "nope").trans
     (by rfl),
   by rw [(call_tool_unknown_tool.2 "not found in catalog" ⟨Json.null, none⟩
       (Json.int 4) "nope").1]⟩

/-- C3 counterexample (to the claim as universally stated over both cited
handlers): the `arcade_serve` handler's response for unknown tool `"nope"`
carries the text `"Error calling tool nope: <exception>"`, not
`"Unknown tool: nope"`. -/
theorem serve_unknown_tool_counterexample :
    (serve_handle_call_tool (CatalogLookup.notFound "") ⟨Json.null, none⟩
        (Json.int 4) "nope").result.content
      = [textBlock "Error calling tool nope: "]
    ∧ (serve_handle_call_tool (CatalogLookup.notFound "") ⟨Json.null, none⟩
        (Json.int 4) "nope").result.content
      ≠ [textBlock "Unknown tool: nope"] := by
  refine ⟨rfl, ?_⟩
  intro h
  rw [show (serve_handle_call_tool (CatalogLookup.notFound "")
      ⟨Json.null, none⟩ (Json.int 4) "nope").result.content
      = [textBlock "Error calling tool nope: "] from rfl] at h
  obtain ⟨h2, -⟩ := List.cons.inj h
  exact absurd (textBlock_inj h2) (by decide)

/-- C9: the `arcade_serve` handler's branch condition
`result.value is not None or (result.value is not None and not
result.error)` repeats its first disjunct, so a successful execution
returning None falls into the error branch: the response is
`CallToolResult\x7bisError:true, content:[text "Error calling tool"]\x7d`
instead of the non-error empty-content result that
`convert_to_mcp_content(None) = []` (an otherwise-dead path here) would
produce. -/
theorem serve_null_result_behavior :
    (serve_handle_call_tool (CatalogLookup.found false) ⟨Json.null, none⟩
        (Json.int 4) "t").result.isError = true
    ∧ (serve_handle_call_tool (CatalogLookup.found false) ⟨Json.null, none⟩
        (Json.int 4) "t").result.content = [textBlock "Error calling tool"]
    ∧ convert_to_mcp_content Json.null = [] :=
  ⟨rfl, rfl, rfl⟩

/-! ## Notification manager
(`libs/arcade-serve/arcade_serve/mcp/notification_manager.py`).

Wall-clock instants (`time.time()`) are rationals.  Python sets of client
ids are modelled as duplicate-free lists built by insertion; set facts are
stated via membership.  `_send_to_client`'s post-send bookkeeping
(`last_notification`, `notification_count`) happens after the sender accepts
a notification and does not influence which client ids are handed to the
sender, so it is not modelled. -/

structure NotificationSubscription where
  subscription_id : String
  method : String
  created_at : ℚ
  filters : Option Json
deriving Repr

/-- `NotificationClient` (capabilities are carried by their `method`
field, which is all `subscribe` consults). -/
structure NotificationClient where
  client_id : String
  capabilities : List String
  subscriptions : List (String × NotificationSubscription)
  last_notification : ℚ
  notification_count : ℕ
  rate_limit_window_start : ℚ
  rate_limit_count : ℕ
deriving Repr

structure DebouncedNotification where
  notification : Json
  clients : List String
  created_at : ℚ
  send_after : ℚ
deriving Repr

/-- `existing.clients.update(client_ids)`: insert each new id not already
present. -/
def setUpdate (s : List String) (new : List String) : List String :=
  new.foldl (fun acc c => if acc.contains c then acc else acc ++ [c]) s

/-- `set(client_ids)`. -/
def setOfList (l : List String) : List String :=
  setUpdate [] l

/-- `NotificationManager._debounce_notification`: upsert into the debounce
table, which the source keys by `debounce_key` ALONE
(`self.debounced: dict[str, DebouncedNotification]`).  On collision the
payload is overwritten, the client set union-merged, and `send_after`
reset to `now + debounce_ms/1000`; `created_at` is kept. -/
def debounce_notification (debounced : List (String × DebouncedNotification))
    (now : ℚ) (notification : Json) (client_ids : List String)
    (debounce_key : String) (debounce_ms : ℚ) :
    List (String × DebouncedNotification) :=
  let send_after := now + debounce_ms / 1000
  match dget debounced debounce_key with
  | some existing =>
      dset debounced debounce_key
        { existing with notification := notification,
                        clients := setUpdate existing.clients client_ids,
                        send_after := send_after }
  | none =>
      dset debounced debounce_key
        ⟨notification, setOfList client_ids, now, send_after⟩

/-- One wake-up of `_process_debounced_notifications` at time `now`:
entries with `now ≥ send_after` are removed from the table and their
payloads handed to `_send_to_clients`; the rest stay. -/
def process_debounced (debounced : List (String × DebouncedNotification))
    (now : ℚ) :
    List (String × DebouncedNotification) × List DebouncedNotification :=
  (debounced.filter (fun e => !(decide (e.2.send_after ≤ now))),
   (debounced.filter (fun e => decide (e.2.send_after ≤ now))).map Prod.snd)

/-- `NotificationManager._check_rate_limit`: `False` for an unregistered
client; reset the 60 s window when stale; reject at the limit, else count
and accept.  The in-place mutations of the client record become `dset`s. -/
def check_rate_limit (rate_limit_per_minute : ℕ)
    (clients : List (String × NotificationClient)) (client_id : String)
    (now : ℚ) : Bool × List (String × NotificationClient) :=
  match dget clients client_id with
  | none => (false, clients)
  | some client =>
      let client :=
        if 60 ≤ now - client.rate_limit_window_start then
          { client with rate_limit_window_start := now, rate_limit_count := 0 }
        else client
      if rate_limit_per_minute ≤ client.rate_limit_count then
        (false, dset clients client_id client)
      else
        (true, dset clients client_id
          { client with rate_limit_count := client.rate_limit_count + 1 })

/-- `NotificationManager._send_to_clients`: walk the target ids, pass each
one that clears the rate limit to the sender (collected in order), drop the
rest with a warning. -/
def send_to_clients (limit : ℕ)
    (clients : List (String × NotificationClient)) (now : ℚ) :
    List String → List String × List (String × NotificationClient)
  | [] => ([], clients)
  | cid :: rest =>
      let r := check_rate_limit limit clients cid now
      let rr := send_to_clients limit r.2 now rest
      (if r.1 then cid :: rr.1 else rr.1, rr.2)

/-- The notification manager's mutable state touched by the claims. -/
structure NotificationManagerState where
  clients : List (String × NotificationClient)
  debounced : List (String × DebouncedNotification)
deriving Repr

/-- `NotificationManager.unregister_client`: delete the client record (its
subscriptions live on it) — and nothing else. -/
def unregister_client (st : NotificationManagerState) (client_id : String) :
    NotificationManagerState :=
  { st with clients := ddel st.clients client_id }

/-- A sequence of single-target notification sends to client `cid` at the
given instants, each going through `_send_to_clients`; returns all ids
handed to the sender and the final clients table. -/
def notifySeq (limit : ℕ) (clients : List (String × NotificationClient))
    (cid : String) : List ℚ → List String × List (String × NotificationClient)
  | [] => ([], clients)
  | t :: ts =>
      let r := send_to_clients limit clients t [cid]
      let rest := notifySeq limit r.2 cid ts
      (r.1 ++ rest.1, rest.2)

lemma dset_eq_of_dget {α : Type} (d : List (String × α)) (k : String) (v : α)
    (h : dget d k = some v) : dset d k v = d := by
  induction d with
  | nil => simp [dget] at h
  | cons p rest ih =>
      obtain ⟨k0, v0⟩ := p
      by_cases h0 : (k0 == k) = true
      · have hk : k0 = k := by simpa using h0
        subst hk
        have hv : v0 = v := by
          rw [dget, List.find?_cons_of_pos _ (by simp)] at h
          simpa using h
        subst hv
        rw [dset, if_pos (by simp)]
      · have hstep : dget ((k0, v0) :: rest) k = dget rest k := by
          rw [dget, List.find?_cons_of_neg _ (by simpa using h0)]
          rfl
        rw [hstep] at h
        rw [dset, if_neg h0, ih h]

lemma dget_cons_ne {α : Type} (rest : List (String × α)) (k0 k : String)
    (v0 : α) (h0 : (k0 == k) = false) :
    dget ((k0, v0) :: rest) k = dget rest k := by
  rw [dget, List.find?_cons_of_neg _ (by simp [h0])]
  rfl

lemma dget_cons_eq {α : Type} (rest : List (String × α)) (k0 k : String)
    (v0 : α) (h0 : (k0 == k) = true) :
    dget ((k0, v0) :: rest) k = some v0 := by
  rw [dget, @List.find?_cons_of_pos (String × α) (fun p => p.1 == k)
    (k0, v0) rest h0]
  rfl

lemma dget_eq_none {α : Type} (d : List (String × α)) (k : String) :
    dget d k = none ↔ k ∉ d.map Prod.fst := by
  induction d with
  | nil => simp [dget]
  | cons p rest ih =>
      obtain ⟨k0, v0⟩ := p
      by_cases h0 : (k0 == k) = true
      · have hk : k0 = k := by simpa using h0
        subst hk
        rw [dget, List.find?_cons_of_pos _ (by simp)]
        simp
      · have hne : k0 ≠ k := by simpa using h0
        rw [dget_cons_ne rest k0 k v0 (by simpa using h0), ih]
        simp [Ne.symm hne]

lemma dget_ddel_ne {α : Type} (d : List (String × α)) (k k' : String)
    (h : k' ≠ k) : dget (ddel d k) k' = dget d k' := by
  induction d with
  | nil => rfl
  | cons p rest ih =>
      obtain ⟨k0, v0⟩ := p
      by_cases h0 : (k0 == k) = true
      · have hk : k0 = k := by simpa using h0
        subst hk
        rw [ddel, if_pos (by simp),
          dget_cons_ne rest k0 k' v0 (by simpa using Ne.symm h)]
      · rw [ddel, if_neg h0]
        by_cases h1 : (k0 == k') = true
        · rw [dget_cons_eq _ k0 k' v0 h1, dget_cons_eq _ k0 k' v0 h1]
        · rw [dget_cons_ne _ k0 k' v0 (by simpa using h1),
            dget_cons_ne _ k0 k' v0 (by simpa using h1), ih]

lemma dget_ddel_self {α : Type} (d : List (String × α)) (k : String)
    (hnodup : (d.map Prod.fst).Nodup) : dget (ddel d k) k = none := by
  induction d with
  | nil => rfl
  | cons p rest ih =>
      obtain ⟨k0, v0⟩ := p
      simp only [List.map_cons, List.nodup_cons] at hnodup
      by_cases h0 : (k0 == k) = true
      · have hk : k0 = k := by simpa using h0
        subst hk
        rw [ddel, if_pos (by simp)]
        rw [dget_eq_none]
        exact hnodup.1
      · rw [ddel, if_neg h0, dget_cons_ne _ k0 k v0 (by simpa using h0)]
        exact ih hnodup.2

lemma mem_setUpdate :
    ∀ (new s : List String) (c : String),
      c ∈ setUpdate s new ↔ c ∈ s ∨ c ∈ new := by
  intro new
  induction new with
  | nil => intro s c; simp [setUpdate]
  | cons n rest ih =>
      intro s c
      show c ∈ setUpdate (if s.contains n then s else s ++ [n]) rest ↔ _
      rw [ih]
      by_cases hn : s.contains n = true
      · rw [if_pos hn]
        have hmem : n ∈ s := List.elem_iff.mp hn
        constructor
        · rintro (hs | hr)
          · exact Or.inl hs
          · exact Or.inr (List.mem_cons_of_mem _ hr)
        · rintro (hs | hr)
          · exact Or.inl hs
          · rcases List.mem_cons.mp hr with hc | hc
            · exact Or.inl (hc ▸ hmem)
            · exact Or.inr hc
      · rw [if_neg hn]
        constructor
        · rintro (hs | hr)
          · rcases List.mem_append.mp hs with hc | hc
            · exact Or.inl hc
            · exact Or.inr (List.mem_cons.mpr (Or.inl (by simpa using hc)))
          · exact Or.inr (List.mem_cons_of_mem _ hr)
        · rintro (hs | hr)
          · exact Or.inl (List.mem_append.mpr (Or.inl hs))
          · rcases List.mem_cons.mp hr with hc | hc
            · exact Or.inl (List.mem_append.mpr (Or.inr (by simp [hc])))
            · exact Or.inr hc

lemma mem_setOfList (l : List String) (c : String) :
    c ∈ setOfList l ↔ c ∈ l := by
  unfold setOfList
  rw [mem_setUpdate]
  simp

/-! ### Rate-limit behaviour of `_check_rate_limit` / `_send_to_clients` -/

lemma check_rate_limit_absent (limit : ℕ)
    (clients : List (String × NotificationClient)) (cid : String) (now : ℚ)
    (h : dget clients cid = none) :
    check_rate_limit limit clients cid now = (false, clients) := by
  unfold check_rate_limit
  rw [h]

lemma check_rate_limit_reject (limit : ℕ)
    (clients : List (String × NotificationClient)) (cid : String) (now : ℚ)
    (cl : NotificationClient) (hget : dget clients cid = some cl)
    (hcnt : limit ≤ cl.rate_limit_count)
    (hwin : now - cl.rate_limit_window_start < 60) :
    check_rate_limit limit clients cid now = (false, clients) := by
  unfold check_rate_limit
  rw [hget]
  simp only [if_neg (not_le.mpr hwin), if_pos hcnt]
  rw [dset_eq_of_dget clients cid cl hget]

lemma check_rate_limit_accept (limit : ℕ)
    (clients : List (String × NotificationClient)) (cid : String) (now : ℚ)
    (cl : NotificationClient) (hget : dget clients cid = some cl)
    (hcnt : cl.rate_limit_count < limit)
    (hwin : now - cl.rate_limit_window_start < 60) :
    check_rate_limit limit clients cid now
      = (true, dset clients cid
          { cl with rate_limit_count := cl.rate_limit_count + 1 }) := by
  unfold check_rate_limit
  rw [hget]
  simp only [if_neg (not_le.mpr hwin), if_neg (not_le.mpr hcnt)]

lemma check_rate_limit_reset (limit : ℕ)
    (clients : List (String × NotificationClient)) (cid : String) (now : ℚ)
    (cl : NotificationClient) (hget : dget clients cid = some cl)
    (hlim : 0 < limit) (hwin : 60 ≤ now - cl.rate_limit_window_start) :
    check_rate_limit limit clients cid now
      = (true, dset clients cid
          { cl with rate_limit_window_start := now, rate_limit_count := 1 }) := by
  unfold check_rate_limit
  rw [hget]
  simp only [if_pos hwin, if_neg (by omega : ¬ limit ≤ 0)]

lemma check_rate_limit_preserves_absent (limit : ℕ)
    (clients : List (String × NotificationClient)) (cid c : String) (now : ℚ)
    (h : dget clients c = none) :
    dget (check_rate_limit limit clients cid now).2 c = none := by
  cases hget : dget clients cid with
  | none => rw [check_rate_limit_absent limit clients cid now hget]; exact h
  | some cl =>
      have hne : c ≠ cid := by
        intro he
        rw [he, hget] at h
        exact Option.noConfusion h
      unfold check_rate_limit
      rw [hget]
      by_cases hwin : 60 ≤ now - cl.rate_limit_window_start
      · simp only [if_pos hwin]
        by_cases hcnt : limit ≤ 0
        · simp only [if_pos hcnt]
          rw [dget_dset_ne _ _ _ _ hne]
          exact h
        · simp only [if_neg hcnt]
          rw [dget_dset_ne _ _ _ _ hne]
          exact h
      · simp only [if_neg hwin]
        by_cases hcnt : limit ≤ cl.rate_limit_count
        · simp only [if_pos hcnt]
          rw [dget_dset_ne _ _ _ _ hne]
          exact h
        · simp only [if_neg hcnt]
          rw [dget_dset_ne _ _ _ _ hne]
          exact h

lemma send_to_clients_single (limit : ℕ)
    (clients : List (String × NotificationClient)) (now : ℚ) (cid : String) :
    send_to_clients limit clients now [cid]
      = (if (check_rate_limit limit clients cid now).1 then [cid] else [],
         (check_rate_limit limit clients cid now).2) := by
  unfold send_to_clients
  cases hb : (check_rate_limit limit clients cid now).1 <;>
    simp [send_to_clients, hb]

lemma notifySeq_all_rejected :
    ∀ (ts : List ℚ) (limit : ℕ)
      (clients : List (String × NotificationClient)) (cid : String)
      (cl : NotificationClient),
      dget clients cid = some cl →
      limit ≤ cl.rate_limit_count →
      (∀ t ∈ ts, t - cl.rate_limit_window_start < 60) →
      notifySeq limit clients cid ts = ([], clients) := by
  intro ts
  induction ts with
  | nil => intros; rfl
  | cons t ts ih =>
      intro limit clients cid cl hget hcnt hwin
      have hrej := check_rate_limit_reject limit clients cid t cl hget hcnt
        (hwin t (by simp))
      simp only [notifySeq]
      rw [send_to_clients_single, hrej]
      simp only [if_neg (by simp : ¬False), Bool.false_eq_true, if_false]
      rw [ih limit clients cid cl hget hcnt
        (fun t' ht' => hwin t' (by simp [ht']))]
      rfl

lemma notifySeq_count_le :
    ∀ (ts : List ℚ) (limit : ℕ)
      (clients : List (String × NotificationClient)) (cid : String)
      (cl : NotificationClient),
      dget clients cid = some cl →
      cl.rate_limit_count ≤ limit →
      (∀ t ∈ ts, t - cl.rate_limit_window_start < 60) →
      (notifySeq limit clients cid ts).1.length
        ≤ limit - cl.rate_limit_count := by
  intro ts
  induction ts with
  | nil => intros; simp [notifySeq]
  | cons t ts ih =>
      intro limit clients cid cl hget hcnt hwin
      by_cases hfull : limit ≤ cl.rate_limit_count
      · rw [notifySeq_all_rejected (t :: ts) limit clients cid cl hget hfull hwin]
        simp
      · have hlt : cl.rate_limit_count < limit := lt_of_not_ge hfull
        have hacc := check_rate_limit_accept limit clients cid t cl hget hlt
          (hwin t (by simp))
        have hget' : dget (dset clients cid
            { cl with rate_limit_count := cl.rate_limit_count + 1 }) cid
            = some { cl with rate_limit_count := cl.rate_limit_count + 1 } :=
          dget_dset_self _ _ _
        have hrest := ih limit
          (dset clients cid { cl with rate_limit_count := cl.rate_limit_count + 1 })
          cid { cl with rate_limit_count := cl.rate_limit_count + 1 }
          hget' (by simpa using hlt)
          (fun t' ht' => hwin t' (by simp [ht']))
        simp only [notifySeq]
        rw [send_to_clients_single, hacc]
        simp only [List.length_append, List.length_cons, List.length_nil,
          if_pos]
        simp only at hrest
        omega

/-- C5: per client, within a single 60-second rate-limit window at most
`rate_limit_per_minute` notifications are handed to the sender; once the
limit is reached, every further notification to that client is dropped
with no state change (not queued, not retried); and a notification
arriving after the window has elapsed resets the window and is delivered
again. -/
theorem rate_limit_window_spec :
    (∀ (limit : ℕ) (clients : List (String × NotificationClient))
       (cid : String) (cl : NotificationClient) (ts : List ℚ),
      dget clients cid = some cl →
      cl.rate_limit_count = 0 →
      (∀ t ∈ ts, t - cl.rate_limit_window_start < 60) →
      (notifySeq limit clients cid ts).1.length ≤ limit)
    ∧ (∀ (limit : ℕ) (clients : List (String × NotificationClient))
         (cid : String) (cl : NotificationClient) (now : ℚ),
        dget clients cid = some cl →
        limit ≤ cl.rate_limit_count →
        now - cl.rate_limit_window_start < 60 →
        send_to_clients limit clients now [cid] = ([], clients))
    ∧ (∀ (limit : ℕ) (clients : List (String × NotificationClient))
         (cid : String) (cl : NotificationClient) (now : ℚ),
        dget clients cid = some cl →
        0 < limit →
        60 ≤ now - cl.rate_limit_window_start →
        send_to_clients limit clients now [cid]
          = ([cid], dset clients cid
              { cl with rate_limit_window_start := now,
                        rate_limit_count := 1 })) := by
  refine ⟨?_, ?_, ?_⟩
  · intro limit clients cid cl ts hget hzero hwin
    have := notifySeq_count_le ts limit clients cid cl hget (by omega) hwin
    omega
  · intro limit clients cid cl now hget hcnt hwin
    rw [send_to_clients_single,
      check_rate_limit_reject limit clients cid now cl hget hcnt hwin]
    simp
  · intro limit clients cid cl now hget hlim hwin
    rw [send_to_clients_single,
      check_rate_limit_reset limit clients cid now cl hget hlim hwin]
    simp

/-- C10: a client id absent from the clients table is never handed to the
sender, even when explicitly listed in the caller-supplied target ids —
`_check_rate_limit` returns `False` for it, so `_send_to_clients` skips
it. -/
theorem unregistered_client_never_sent (limit : ℕ)
    (clients : List (String × NotificationClient)) (now : ℚ)
    (ids : List String) (cid : String)
    (h : dget clients cid = none) :
    cid ∉ (send_to_clients limit clients now ids).1 := by
  induction ids generalizing clients with
  | nil => simp [send_to_clients]
  | cons c0 rest ih =>
      simp only [send_to_clients]
      have habs := check_rate_limit_preserves_absent limit clients c0 cid now h
      have hrest := ih (check_rate_limit limit clients c0 now).2 habs
      by_cases hb : (check_rate_limit limit clients c0 now).1 = true
      · rw [if_pos hb]
        intro hmem
        rcases List.mem_cons.mp hmem with he | hm
        · have habs0 : dget clients c0 = none := he ▸ h
          rw [check_rate_limit_absent limit clients c0 now habs0] at hb
          simp at hb
        · exact hrest hm
      · rw [if_neg hb]
        exact hrest

/-- C5 witness: limit 2, five notifications inside one window — at most 2
reach the sender; a full client drops without state change; a stale window
resets and delivers. -/
theorem rate_limit_window_spec_witness :
    (dget [("c", (⟨"c", [], [], 0, 0, 0, 0⟩ : NotificationClient))] "c"
        = some (⟨"c", [], [], 0, 0, 0, 0⟩ : NotificationClient)
     ∧ (⟨"c", [], [], 0, 0, 0, 0⟩ : NotificationClient).rate_limit_count = 0
     ∧ (notifySeq 2 [("c", ⟨"c", [], [], 0, 0, 0, 0⟩)] "c"
          ([0, 1, 2, 3, 4] : List ℚ)).1.length ≤ 2)
    ∧ send_to_clients 2 [("c", ⟨"c", [], [], 0, 0, 2, 2⟩)] 30 ["c"]
        = ([], [("c", ⟨"c", [], [], 0, 0, 2, 2⟩)])
    ∧ send_to_clients 2 [("c", ⟨"c", [], [], 0, 0, 2, 2⟩)] 70 ["c"]
        = (["c"], dset [("c", ⟨"c", [], [], 0, 0, 2, 2⟩)] "c"
            ⟨"c", [], [], 0, 0, 70, 1⟩) :=
  ⟨⟨rfl, rfl,
    rate_limit_window_spec.1 2 _ "c" ⟨"c", [], [], 0, 0, 0, 0⟩ [0, 1, 2, 3, 4]
      rfl rfl (by intro t ht; fin_cases ht <;> norm_num)⟩,
   rate_limit_window_spec.2.1 2 _ "c" ⟨"c", [], [], 0, 0, 2, 2⟩ 30 rfl
     (by norm_num) (by norm_num),
   rate_limit_window_spec.2.2 2 _ "c" ⟨"c", [], [], 0, 0, 2, 2⟩ 70 rfl
     (by norm_num) (by norm_num)⟩

/-- C10 witness: `"ghost"` is not registered; even listed explicitly in the
target ids it is never handed to the sender. -/
theorem unregistered_client_never_sent_witness :
    dget [("a", (⟨"a", [], [], 0, 0, 0, 0⟩ : NotificationClient))] "ghost"
      = none
    ∧ "ghost" ∉ (send_to_clients 60
        [("a", ⟨"a", [], [], 0, 0, 0, 0⟩)] 0 ["ghost", "a"]).1 :=
  ⟨rfl,
   unregistered_client_never_sent 60 [("a", ⟨"a", [], [], 0, 0, 0, 0⟩)] 0
     ["ghost", "a"] "ghost" rfl⟩

/-! ### Debounce table -/

lemma debounce_empty (now : ℚ) (p : Json) (cs : List String) (key : String)
    (ms : ℚ) :
    debounce_notification [] now p cs key ms
      = [(key, ⟨p, setOfList cs, now, now + ms / 1000⟩)] := rfl

lemma debounce_single_merge (e : DebouncedNotification) (now : ℚ) (p : Json)
    (cs : List String) (key : String) (ms : ℚ) :
    debounce_notification [(key, e)] now p cs key ms
      = [(key, ⟨p, setUpdate e.clients cs, e.created_at, now + ms / 1000⟩)] := by
  unfold debounce_notification
  rw [dget_cons_eq [] key key e (by simp)]
  show dset [(key, e)] key _ = _
  rw [dset, if_pos (by simp)]

/-- C4 (amended): the debounce table is keyed by `debounce_key` alone;
when a second notification with the same key arrives while one is pending,
the entry's payload is replaced by the new one, its target-client set
becomes the union, its `send_after` is reset to the new arrival time plus
the debounce interval (an extension whenever time is monotone and the
interval has not shrunk), and `created_at` is kept; the flush pass at any
time past `send_after` delivers exactly one payload — the last one queued —
and clears the entry. -/
theorem debounce_merge_last_writer (now1 now2 ms1 ms2 flushTime : ℚ)
    (p1 p2 : Json) (c1 c2 : List String) (key : String)
    (hbefore : now2 < now1 + ms1 / 1000)
    (hflush : now2 + ms2 / 1000 ≤ flushTime) :
    (∃ e : DebouncedNotification,
      dget (debounce_notification
          (debounce_notification [] now1 p1 c1 key ms1)
          now2 p2 c2 key ms2) key = some e
      ∧ e.notification = p2
      ∧ (∀ c, c ∈ e.clients ↔ c ∈ c1 ∨ c ∈ c2)
      ∧ e.send_after = now2 + ms2 / 1000
      ∧ e.created_at = now1)
    ∧ (now1 ≤ now2 → ms1 ≤ ms2 →
        now1 + ms1 / 1000 ≤ now2 + ms2 / 1000)
    ∧ ((process_debounced
          (debounce_notification
            (debounce_notification [] now1 p1 c1 key ms1)
            now2 p2 c2 key ms2) flushTime).2.map
        (fun e => e.notification)) = [p2]
    ∧ (process_debounced
        (debounce_notification
          (debounce_notification [] now1 p1 c1 key ms1)
          now2 p2 c2 key ms2) flushTime).1 = [] := by
  rw [debounce_empty, debounce_single_merge]
  refine ⟨?_, ?_, ?_, ?_⟩
  · refine ⟨_, dget_cons_eq [] key key _ (by simp), rfl, ?_, rfl, rfl⟩
    intro c
    show c ∈ setUpdate (setOfList c1) c2 ↔ _
    rw [mem_setUpdate, mem_setOfList]
  · intro h1 h2
    have h3 : ms1 / 1000 ≤ ms2 / 1000 :=
      (div_le_div_iff_of_pos_right (by norm_num)).mpr h2
    exact add_le_add h1 h3
  · unfold process_debounced
    simp [List.filter, decide_eq_true hflush]
  · unfold process_debounced
    simp [List.filter, decide_eq_true hflush]

/-- C4 witness: two `notify_resource_updated`-style payloads for the same
key 50 ms apart with a 100 ms debounce; the flush at t = 1 s delivers one
notification, the second payload, addressed to the union of targets. -/
theorem debounce_merge_last_writer_witness :
    ((1 : ℚ) / 20 < 0 + 100 / 1000 ∧ (1 : ℚ) / 20 + 100 / 1000 ≤ 1)
    ∧ ((process_debounced
          (debounce_notification
            (debounce_notification [] 0 (Json.str "u1") ["c1"] "file://a" 100)
            (1 / 20) (Json.str "u2") ["c2"] "file://a" 100) 1).2.map
        (fun e => e.notification)) = [Json.str "u2"]
    ∧ (process_debounced
        (debounce_notification
          (debounce_notification [] 0 (Json.str "u1") ["c1"] "file://a" 100)
          (1 / 20) (Json.str "u2") ["c2"] "file://a" 100) 1).1 = [] :=
  ⟨⟨by norm_num, by norm_num⟩,
   (debounce_merge_last_writer 0 (1 / 20) 100 100 1 (Json.str "u1")
      (Json.str "u2") ["c1"] ["c2"] "file://a" (by norm_num)
      (by norm_num)).2.2.1,
   (debounce_merge_last_writer 0 (1 / 20) 100 100 1 (Json.str "u1")
      (Json.str "u2") ["c1"] ["c2"] "file://a" (by norm_num)
      (by norm_num)).2.2.2⟩

/-- Lookup in a table keyed by `(method, debounce_key)` pairs. -/
def pget (d : List ((String × String) × DebouncedNotification))
    (k : String × String) : Option DebouncedNotification :=
  (d.find? (fun p => p.1.1 == k.1 && p.1.2 == k.2)).map Prod.snd

/-- Assignment in a table keyed by `(method, debounce_key)` pairs. -/
def pset : List ((String × String) × DebouncedNotification) →
    (String × String) → DebouncedNotification →
    List ((String × String) × DebouncedNotification)
  | [], k, v => [(k, v)]
  | (k', v') :: rest, k, v =>
      if k'.1 == k.1 && k'.2 == k.2 then (k, v) :: rest
      else (k', v') :: pset rest k v

/-- Modelled from the spec: the claim's debounce table "keyed by the pair
`(method, debounce_key)`" — the same upsert as `_debounce_notification`
but with the notification's method as part of the key.  Compared against
the source's key-by-`debounce_key`-alone table in the C4 counterexample. -/
def debounce_notification_pairKeyed
    (table : List ((String × String) × DebouncedNotification)) (now : ℚ)
    (method : String) (notification : Json) (client_ids : List String)
    (debounce_key : String) (debounce_ms : ℚ) :
    List ((String × String) × DebouncedNotification) :=
  let send_after := now + debounce_ms / 1000
  match pget table (method, debounce_key) with
  | some existing =>
      pset table (method, debounce_key)
        { existing with notification := notification,
                        clients := setUpdate existing.clients client_ids,
                        send_after := send_after }
  | none =>
      pset table (method, debounce_key)
        ⟨notification, setOfList client_ids, now, send_after⟩

/-- C4 counterexample: a `notifications/progress` payload and a
`notifications/resources/updated` payload share `debounce_key = "k"`.
Under the source's table — keyed by `debounce_key` alone — the second
upsert overwrites the first (one entry survives, holding the
resources/updated payload); under the claim's pair keying both entries
would be pending. -/
theorem debounce_pair_key_counterexample :
    ((debounce_notification
        (debounce_notification [] 0
          (Json.obj [("method", Json.str "notifications/progress")])
          ["c1"] "k" 100)
        0 (Json.obj [("method", Json.str "notifications/resources/updated")])
        ["c2"] "k" 100).map Prod.fst) = ["k"]
    ∧ (dget (debounce_notification
        (debounce_notification [] 0
          (Json.obj [("method", Json.str "notifications/progress")])
          ["c1"] "k" 100)
        0 (Json.obj [("method", Json.str "notifications/resources/updated")])
        ["c2"] "k" 100) "k").map (fun e => e.notification)
      = some (Json.obj [("method", Json.str "notifications/resources/updated")])
    ∧ ((debounce_notification_pairKeyed
        (debounce_notification_pairKeyed [] 0 "notifications/progress"
          (Json.obj [("method", Json.str "notifications/progress")])
          ["c1"] "k" 100)
        0 "notifications/resources/updated"
        (Json.obj [("method", Json.str "notifications/resources/updated")])
        ["c2"] "k" 100).map Prod.fst)
      = [("notifications/progress", "k"),
         ("notifications/resources/updated", "k")] :=
  ⟨rfl, rfl, rfl⟩

/-! ### `unregister_client` -/

/-- C8 counterexample: after `unregister_client("c1")` the client record is
gone, but the debounced entry addressed solely to `"c1"` is still in the
debounce table — `unregister_client` never touches `self.debounced`. -/
theorem unregister_client_counterexample :
    (unregister_client
        ⟨[("c1", ⟨"c1", [], [], 0, 0, 0, 0⟩)],
         [("k", ⟨Json.str "u", ["c1"], 0, 1⟩)]⟩ "c1").clients = []
    ∧ (unregister_client
        ⟨[("c1", ⟨"c1", [], [], 0, 0, 0, 0⟩)],
         [("k", ⟨Json.str "u", ["c1"], 0, 1⟩)]⟩ "c1").debounced
      = [("k", ⟨Json.str "u", ["c1"], 0, 1⟩)]
    ∧ dget (unregister_client
        ⟨[("c1", ⟨"c1", [], [], 0, 0, 0, 0⟩)],
         [("k", ⟨Json.str "u", ["c1"], 0, 1⟩)]⟩ "c1").debounced "k"
      = some ⟨Json.str "u", ["c1"], 0, 1⟩ :=
  ⟨rfl, rfl, rfl⟩

/-- C8 (amended): `unregister_client` removes the client (and with it its
subscriptions, which live on the client record) from the clients table,
leaving every other client untouched; the debounce table is NOT purged —
entries addressed solely to the removed client stay until their
`send_after` elapses, at which point `_check_rate_limit` returns `False`
for the unregistered id and delivery drops it. -/
theorem unregister_client_spec (st : NotificationManagerState)
    (cid : String) (hnodup : (st.clients.map Prod.fst).Nodup) :
    dget (unregister_client st cid).clients cid = none
    ∧ (∀ c, c ≠ cid →
        dget (unregister_client st cid).clients c = dget st.clients c)
    ∧ (unregister_client st cid).debounced = st.debounced
    ∧ (∀ (limit : ℕ) (now : ℚ),
        cid ∉ (send_to_clients limit (unregister_client st cid).clients
          now [cid]).1) := by
  refine ⟨dget_ddel_self _ _ hnodup,
    fun c hc => dget_ddel_ne _ _ _ hc, rfl, ?_⟩
  intro limit now
  exact unregistered_client_never_sent limit _ now [cid] cid
    (dget_ddel_self _ _ hnodup)

/-- C8 witness: concrete two-client state. -/
theorem unregister_client_spec_witness :
    (([("c1", (⟨"c1", [], [], 0, 0, 0, 0⟩ : NotificationClient)),
       ("c2", ⟨"c2", [], [], 0, 0, 0, 0⟩)].map Prod.fst).Nodup)
    ∧ dget (unregister_client
        ⟨[("c1", ⟨"c1", [], [], 0, 0, 0, 0⟩),
          ("c2", ⟨"c2", [], [], 0, 0, 0, 0⟩)],
         [("k", ⟨Json.str "u", ["c1"], 0, 1⟩)]⟩ "c1").clients "c1" = none
    ∧ (unregister_client
        ⟨[("c1", ⟨"c1", [], [], 0, 0, 0, 0⟩),
          ("c2", ⟨"c2", [], [], 0, 0, 0, 0⟩)],
         [("k", ⟨Json.str "u", ["c1"], 0, 1⟩)]⟩ "c1").debounced
      = [("k", ⟨Json.str "u", ["c1"], 0, 1⟩)] :=
  ⟨by decide,
   (unregister_client_spec
      ⟨[("c1", ⟨"c1", [], [], 0, 0, 0, 0⟩),
        ("c2", ⟨"c2", [], [], 0, 0, 0, 0⟩)],
       [("k", ⟨Json.str "u", ["c1"], 0, 1⟩)]⟩ "c1" (by decide)).1,
   (unregister_client_spec
      ⟨[("c1", ⟨"c1", [], [], 0, 0, 0, 0⟩),
        ("c2", ⟨"c2", [], [], 0, 0, 0, 0⟩)],
       [("k", ⟨Json.str "u", ["c1"], 0, 1⟩)]⟩ "c1" (by decide)).2.2.1⟩

end Arcade
